import Mathlib

/-!
Shallow embedding of the Statefulia state-management library
(`State`, `StateElement`, `StateComponent`) and proofs about it.

Modelling conventions:
* JS `Map` and `localStorage` are association lists with in-place update
  (`mapSet`), preserving insertion order like the originals.
* Throwing methods are embedded as `Except JsError`; an error result means
  the JS method threw before (or instead of) mutating anything.
* Event dispatch is synchronous; each mutating operation returns the list
  of events it dispatched, in dispatch order.
* IEEE doubles are modelled by `JsNum` (NaN or an integer); fractional and
  exponent numerals are outside the scope of every claim treated here.
* Symbol identity (reference freshness) is not modelled; a symbol is
  represented by its description string.
* JSON string escaping is not modelled (strings are taken verbatim).
-/

namespace Statefulia

/-- In-place update of an association list, appending when the key is new.
Models `Map.prototype.set` / `localStorage.setItem` (insertion order kept,
existing entry overwritten in place). -/
def mapSet {α : Type} (m : List (String × α)) (k : String) (v : α) : List (String × α) :=
  match m with
  | [] => [(k, v)]
  | (k', v') :: rest => if k' = k then (k, v) :: rest else (k', v') :: mapSet rest k v

/-- Lookup in an association list. Models `Map.prototype.get` /
`localStorage.getItem` (with `Option.none` for JS `undefined` / `null`). -/
def mapGet {α : Type} (m : List (String × α)) (k : String) : Option α :=
  match m with
  | [] => Option.none
  | (k', v') :: rest => if k' = k then some v' else mapGet rest k

/-- The `\x7b` character, kept out of string literals. -/
def jsLBrace : Char := Char.ofNat 123

/-- The `\x7d` character, kept out of string literals. -/
def jsRBrace : Char := Char.ofNat 125

/-- JSON values, as produced by `JSON.parse`.  JSON numbers are modelled as
integers (see the module comment). -/
inductive Json where
  | null : Json
  | bool (b : Bool) : Json
  | num (n : Int) : Json
  | str (s : String) : Json
  | arr (xs : List Json) : Json
  | obj (fields : List (String × Json)) : Json

mutual

/-- Model of `JSON.stringify` on the modelled JSON values. -/
def Json.stringify : Json → String
  | .null => "null"
  | .bool b => cond b "true" "false"
  | .num n => toString n
  | .str s => "\"" ++ s ++ "\""
  | .arr xs => "[" ++ Json.stringifyList xs ++ "]"
  | .obj fs => String.singleton jsLBrace ++ Json.stringifyFields fs ++ String.singleton jsRBrace

/-- Comma-separated rendering of a JSON array's elements. -/
def Json.stringifyList : List Json → String
  | [] => ""
  | [j] => Json.stringify j
  | j :: rest => Json.stringify j ++ "," ++ Json.stringifyList rest

/-- Comma-separated rendering of a JSON object's fields. -/
def Json.stringifyFields : List (String × Json) → String
  | [] => ""
  | [(k, j)] => "\"" ++ k ++ "\":" ++ Json.stringify j
  | (k, j) :: rest => "\"" ++ k ++ "\":" ++ Json.stringify j ++ "," ++ Json.stringifyFields rest

end

/-- Skip JSON whitespace. -/
def skipWs : List Char → List Char
  | c :: cs => if c = ' ' ∨ c = '\n' ∨ c = '\t' ∨ c = '\r' then skipWs cs else c :: cs
  | [] => []

/-- Read the characters of a JSON string literal up to the closing quote
(escapes unmodelled). -/
def readStrChars : List Char → Option (List Char × List Char)
  | [] => Option.none
  | c :: cs =>
    if c = '"' then some ([], cs)
    else (readStrChars cs).map (fun p => (c :: p.1, p.2))

/-- Split a leading run of decimal digits. -/
def takeDigits : List Char → (List Char × List Char)
  | [] => ([], [])
  | c :: cs =>
    if c.isDigit then
      let p := takeDigits cs
      (c :: p.1, p.2)
    else ([], c :: cs)

/-- Numeric value of a digit run. -/
def digitsToNat (ds : List Char) : Nat :=
  ds.foldl (fun a c => a * 10 + (c.toNat - 48)) 0

/-- Read a JSON integer numeral (optional minus sign, then digits). -/
def readNum : List Char → Option (Int × List Char)
  | [] => Option.none
  | c :: cs =>
    if c = '-' then
      match takeDigits cs with
      | ([], _) => Option.none
      | (ds, rest) => some (-(digitsToNat ds : Int), rest)
    else
      match takeDigits (c :: cs) with
      | ([], _) => Option.none
      | (ds, rest) => some ((digitsToNat ds : Int), rest)

mutual

/-- Fuel-indexed recursive-descent parser for the modelled JSON grammar
(model of `JSON.parse`'s accepted language, minus floats and escapes). -/
def parseJson : Nat → List Char → Option (Json × List Char)
  | 0, _ => Option.none
  | fuel + 1, cs =>
    match skipWs cs with
    | [] => Option.none
    | c :: rest =>
      if c = 'n' then
        match rest with
        | 'u' :: 'l' :: 'l' :: r => some (.null, r)
        | _ => Option.none
      else if c = 't' then
        match rest with
        | 'r' :: 'u' :: 'e' :: r => some (.bool true, r)
        | _ => Option.none
      else if c = 'f' then
        match rest with
        | 'a' :: 'l' :: 's' :: 'e' :: r => some (.bool false, r)
        | _ => Option.none
      else if c = '"' then
        (readStrChars rest).map (fun p => (Json.str (String.mk p.1), p.2))
      else if c = '[' then
        parseArrayRest fuel rest
      else if c = jsLBrace then
        parseObjRest fuel rest
      else
        (readNum (c :: rest)).map (fun p => (Json.num p.1, p.2))

/-- Parse the remainder of a JSON array after the opening bracket. -/
def parseArrayRest : Nat → List Char → Option (Json × List Char)
  | 0, _ => Option.none
  | fuel + 1, cs =>
    match skipWs cs with
    | ']' :: r => some (.arr [], r)
    | cs' =>
      match parseJson fuel cs' with
      | Option.none => Option.none
      | some (j, r) =>
        match skipWs r with
        | ',' :: r' =>
          match parseArrayRest fuel r' with
          | some (.arr xs, r'') => some (.arr (j :: xs), r'')
          | _ => Option.none
        | ']' :: r' => some (.arr [j], r')
        | _ => Option.none

/-- Parse the remainder of a JSON object after the opening brace. -/
def parseObjRest : Nat → List Char → Option (Json × List Char)
  | 0, _ => Option.none
  | fuel + 1, cs =>
    match skipWs cs with
    | [] => Option.none
    | c :: rest =>
      if c = jsRBrace then some (.obj [], rest)
      else if c = '"' then
        match readStrChars rest with
        | Option.none => Option.none
        | some (kcs, r) =>
          match skipWs r with
          | ':' :: r' =>
            match parseJson fuel r' with
            | Option.none => Option.none
            | some (j, r'') =>
              match skipWs r'' with
              | ',' :: r''' =>
                match parseObjRest fuel r''' with
                | some (.obj fs, r4) => some (.obj ((String.mk kcs, j) :: fs), r4)
                | _ => Option.none
              | c' :: r''' =>
                if c' = jsRBrace then some (.obj [(String.mk kcs, j)], r''')
                else Option.none
              | _ => Option.none
          | _ => Option.none
      else Option.none

end

/-- JS runtime type tags relevant to `StorageValue` (the `typeof` results the
library distinguishes). -/
inductive StorageValueType where
  | bigint | boolean | symbol | number | object | string
deriving DecidableEq, Repr

/-- A JS number: NaN or an integral double (see module comment). -/
inductive JsNum where
  | nan : JsNum
  | int (n : Int) : JsNum
deriving DecidableEq, Repr

/-- `Number.prototype.toString` on the modelled numbers. -/
def jsNumToString : JsNum → String
  | .nan => "NaN"
  | .int n => toString n

/-- The library's value domain:
`type StorageValue = bigint | boolean | symbol | number | object | string`.
A symbol carries only its description; an object carries its JSON content
(boxed scalars are representable as scalar `Json`, all of `typeof` object). -/
inductive StorageValue where
  | bigintV (n : Int) : StorageValue
  | boolV (b : Bool) : StorageValue
  | symbolV (descr : String) : StorageValue
  | numberV (x : JsNum) : StorageValue
  | objectV (j : Json) : StorageValue
  | stringV (s : String) : StorageValue

/-- `typeof` on a `StorageValue`. -/
def StorageValue.typeOf : StorageValue → StorageValueType
  | .bigintV _ => .bigint
  | .boolV _ => .boolean
  | .symbolV _ => .symbol
  | .numberV _ => .number
  | .objectV _ => .object
  | .stringV _ => .string

/-- Model of the JS `Boolean(string)` coercion: a string is truthy exactly
when it is nonempty (so in particular `Boolean "false" = true`). -/
def jsBoolean (s : String) : Bool := s ≠ ""

/-- Model of `Number.parseFloat`: skip leading whitespace, read an optional
sign and a digit run; NaN when no digit follows (fractional part and
exponent unmodelled). -/
def jsParseFloat (s : String) : JsNum :=
  match skipWs s.data with
  | '-' :: cs =>
    match takeDigits cs with
    | ([], _) => .nan
    | (ds, _) => .int (-(digitsToNat ds : Int))
  | '+' :: cs =>
    match takeDigits cs with
    | ([], _) => .nan
    | (ds, _) => .int (digitsToNat ds)
  | cs =>
    match takeDigits cs with
    | ([], _) => .nan
    | (ds, _) => .int (digitsToNat ds)

/-- Model of the JS `Number(string)` conversion: trim whitespace on both
sides, the empty string is 0, otherwise the whole remainder must be a signed
decimal numeral, else NaN. -/
def jsNumberOfString (s : String) : JsNum :=
  let t := (skipWs ((skipWs s.data).reverse)).reverse
  match t with
  | [] => .int 0
  | '-' :: cs =>
    match takeDigits cs with
    | ([], _) => .nan
    | (ds, rest) => if rest = [] then .int (-(digitsToNat ds : Int)) else .nan
  | '+' :: cs =>
    match takeDigits cs with
    | ([], _) => .nan
    | (ds, rest) => if rest = [] then .int (digitsToNat ds) else .nan
  | cs =>
    match takeDigits cs with
    | ([], _) => .nan
    | (ds, rest) => if rest = [] then .int (digitsToNat ds) else .nan

/-- The error taxonomy of the library (every `throw new Error(...)` site),
plus JSON parse failures raised by the host's `JSON.parse`. -/
inductive JsError where
  | duplicateKey : JsError
  | unknownKey : JsError
  | unsupportedType (t : String) : JsError
  | typeMismatch (expected actual : StorageValueType) : JsError
  | jsonError (msg : String) : JsError
  | invalidEvent : JsError
deriving DecidableEq, Repr

/-- `JSON.parse` as an `Except`: parse one value and require only trailing
whitespace after it. -/
def Json.parse (s : String) : Except JsError Json :=
  match parseJson (s.length + 2) s.data with
  | some (j, rest) =>
    if skipWs rest = [] then .ok j else .error (.jsonError "unexpected trailing input")
  | Option.none => .error (.jsonError "unexpected end of JSON input")

/-- Map a `JSON.parse` result to the `StorageValue` it is at runtime:
scalars become values of their own `typeof`, `null`/arrays/objects are of
`typeof` object. -/
def jsonToValue : Json → StorageValue
  | .null => .objectV .null
  | .bool b => .boolV b
  | .num n => .numberV (.int n)
  | .str s => .stringV s
  | .arr xs => .objectV (.arr xs)
  | .obj fs => .objectV (.obj fs)

/-- `State.valueToString`: bigint/boolean/symbol/number via their native
`toString`, object via `JSON.stringify`, string unchanged.  The TS source's
default branch (`undefined`/`function`) is unrepresentable in
`StorageValue`, so the function is total here. -/
def valueToString : StorageValue → String
  | .bigintV n => toString n
  | .boolV b => cond b "true" "false"
  | .symbolV d => "Symbol(" ++ d ++ ")"
  | .numberV x => jsNumToString x
  | .objectV j => j.stringify
  | .stringV s => s

/-- `State.valueFromString`: decoding guided by the recorded kind.
Note the source's asymmetries: a bigint slot decodes via `Number(value)`
(yielding a number, not a bigint), a boolean slot via `Boolean(value)`
(truthiness of the string), a symbol slot allocates a fresh symbol with the
string as description.  Only `JSON.parse` (the object kind) can throw; the
TS `default` branch is unreachable for the six-valued kind tag. -/
def valueFromString (value : String) (type : StorageValueType) : Except JsError StorageValue :=
  match type with
  | .bigint => .ok (.numberV (jsNumberOfString value))
  | .boolean => .ok (.boolV (jsBoolean value))
  | .symbol => .ok (.symbolV value)
  | .number => .ok (.numberV (jsParseFloat value))
  | .object => (Json.parse value).map jsonToValue
  | .string => .ok (.stringV value)

/-- `StateConfig`, with the defaults of `State._config`.  The TS field
`prefix` is called `pfx` here (`prefix` is reserved in Lean); the constructor
spread-merge of a partial config into these defaults is modelled by the
record's default field values. -/
structure StateConfig where
  useChangeEvent : Bool := false
  useLogs : Bool := false
  pfx : String := ""
  useRefetchOnFocus : Bool := true

/-- `StateElementConfig`, with the defaults of `StateElement._config`.
Every read of a missing raw field in the source coerces it through JS
falsiness to the same default recorded here, so carrying the merged record
everywhere is observationally faithful. -/
structure StateElementConfig where
  useLocalStorage : Bool := false
  useEvents : Bool := false
  onBeforeSet : Option (StorageValue → StorageValue) := Option.none
  useRefetchOnFocus : Bool := true

/-- `StateElementOptions`: a default value and a per-slot config. -/
structure StateElementOptions where
  defaultValue : StorageValue
  config : StateElementConfig := {}

/-- `StateElement`: key, default value and config.  The `_type` field is set
once in the constructor as `typeof opts.defaultValue` and never mutated, so
it is modelled as the derived function `StateElement.type`. -/
structure StateElement where
  key : String
  defaultValue : StorageValue
  config : StateElementConfig

/-- The slot's recorded kind (`this._type = typeof opts.defaultValue`). -/
def StateElement.type (e : StateElement) : StorageValueType :=
  e.defaultValue.typeOf

/-- The `State` object: in-memory storage map, registered elements, config. -/
structure StateModel where
  storage : List (String × StorageValue) := []
  elements : List (String × StateElement) := []
  config : StateConfig := {}

/-- A `State` together with the browser's `localStorage` (string-to-string
key-value store). -/
structure World where
  state : StateModel
  store : List (String × String) := []

/-- An event's `detail` payload: per-key events carry the new value,
the aggregate "change" event carries the `\x7bkey, value\x7d` pair. -/
inductive EventDetail where
  | plain (value : StorageValue) : EventDetail
  | change (key : String) (value : StorageValue) : EventDetail

/-- A dispatched `CustomEvent`: its type string (channel) and detail. -/
structure Event where
  channel : String
  detail : EventDetail

/-- `State.prefixKey`: the raw key when the configured prefix is falsy
(empty), otherwise the interpolation of prefix, a hyphen, and the key. -/
def prefixKey (c : StateConfig) (key : String) : String :=
  if c.pfx = "" then key else c.pfx ++ "-" ++ key

/-- `State.set`: unconditionally overwrite the in-memory value; persist the
string encoding under the prefixed key when `config.useLocalStorage`;
when `config.useEvents`, dispatch the per-key event and then, if the
State-level `useChangeEvent` flag is set, the aggregate "change" event.
Returns the updated world and the dispatched events in dispatch order. -/
def stateSet (w : World) (key : String) (value : StorageValue) (config : StateElementConfig) :
    World × List Event :=
  let st := w.state
  let storage' := mapSet st.storage key value
  let store' :=
    if config.useLocalStorage then mapSet w.store (prefixKey st.config key) (valueToString value)
    else w.store
  let events :=
    if config.useEvents then
      Event.mk key (.plain value) ::
        (if st.config.useChangeEvent then [Event.mk "change" (.change key value)] else [])
    else []
  ({ state := { st with storage := storage' }, store := store' }, events)

/-- `State.get`: the current in-memory value, `Option.none` when absent. -/
def stateGet (st : StateModel) (key : String) : Option StorageValue :=
  mapGet st.storage key

/-- `StateElement.get`: delegate to the owning state's lookup. -/
def elementGet (w : World) (e : StateElement) : Option StorageValue :=
  stateGet w.state e.key

/-- The `onBeforeSet` transform applied inside `StateElement.set`: the hook's
return value replaces the value to be stored (no re-validation). -/
def applyHook (e : StateElement) (value : StorageValue) : StorageValue :=
  match e.config.onBeforeSet with
  | some f => f value
  | Option.none => value

/-- `StateElement.set`: throw `TypeMismatch` when `typeof value` differs from
the recorded kind; otherwise run the `onBeforeSet` hook (when configured) and
delegate to `State.set` with this slot's config. -/
def elementSet (w : World) (e : StateElement) (value : StorageValue) :
    Except JsError (World × List Event) :=
  if value.typeOf ≠ e.type then
    .error (.typeMismatch e.type value.typeOf)
  else
    .ok (stateSet w e.key (applyHook e value) e.config)

/-- `StateElement.reset`: `set(defaultValue)`. -/
def elementReset (w : World) (e : StateElement) : Except JsError (World × List Event) :=
  elementSet w e e.defaultValue

/-- A finite sequence of `StateElement.set` calls, each required to succeed
(dispatched events discarded). -/
def setMany (w : World) (e : StateElement) : List StorageValue → Except JsError World
  | [] => .ok w
  | v :: vs =>
    match elementSet w e v with
    | .error err => .error err
    | .ok (w', _) => setMany w' e vs

/-- `State.init`: throw on an already registered key; determine the kind from
the default value (the TS guard rejecting `function`/`undefined` defaults is
unrepresentable in `StorageValue`); when the slot's config requests
persistence and a persisted string exists under the prefixed key, decode it
(uncaught on failure) and use it instead of the default; store the resolved
value with events suppressed; register and return the new element. -/
def stateInit (w : World) (key : String) (opts : StateElementOptions) :
    Except JsError (World × StateElement) :=
  if (mapGet w.state.elements key).isSome then .error .duplicateKey
  else
    let type := opts.defaultValue.typeOf
    let loaded : Except JsError StorageValue :=
      if opts.config.useLocalStorage then
        match mapGet w.store (prefixKey w.state.config key) with
        | some s => valueFromString s type
        | Option.none => .ok opts.defaultValue
      else .ok opts.defaultValue
    match loaded with
    | .error err => .error err
    | .ok value =>
      let w' := (stateSet w key value { opts.config with useEvents := false }).1
      let elem : StateElement := { key := key, defaultValue := opts.defaultValue, config := opts.config }
      .ok ({ w' with state := { w'.state with elements := mapSet w'.state.elements key elem } }, elem)

/-- `State.attach`: the registered element for the key, throwing when the key
was never initialized. -/
def stateAttach (st : StateModel) (key : String) : Except JsError StateElement :=
  match mapGet st.elements key with
  | some e => .ok e
  | Option.none => .error .unknownKey

/-- One iteration of the window-focus resynchronization pass (the body of the
`forEach` in the `State` constructor's focus listener): for a slot with both
persistence and focus-refetch enabled and a persisted string present, apply
the decoded value through the slot's normal `set` path; any error (decode or
set) is caught and logged (returned in the error list), not propagated. -/
def focusStep (w : World) (key : String) (e : StateElement) :
    World × List Event × List JsError :=
  if e.config.useLocalStorage && e.config.useRefetchOnFocus then
    match mapGet w.store (prefixKey w.state.config key) with
    | some s =>
      match valueFromString s e.type with
      | .error err => (w, [], [err])
      | .ok v =>
        match elementSet w e v with
        | .error err => (w, [], [err])
        | .ok (w', evs) => (w', evs, [])
    | Option.none => (w, [], [])
  else (w, [], [])

/-- The focus pass over a list of registered elements (the `forEach`): later
slots are processed regardless of earlier failures. -/
def runFocus : List (String × StateElement) → World → World × List Event × List JsError
  | [], w => (w, [], [])
  | (k, e) :: rest, w =>
    let r₁ := focusStep w k e
    let r₂ := runFocus rest r₁.1
    (r₂.1, r₁.2.1 ++ r₂.2.1, r₁.2.2 ++ r₂.2.2)

/-- The window-focus listener body: iterate over all registered elements
(the element map is not mutated by the pass, so iterating the initial list
is faithful to the live `forEach`). -/
def onFocus (w : World) : World × List Event × List JsError :=
  runFocus w.state.elements w

/-- The value the normal `set` path stores for a slot when the persisted
string `s` is refetched for element `e`, or the error that path raises
(decode failure, or the `TypeMismatch` of `StateElement.set`). -/
def refetchResult (e : StateElement) (s : String) : Except JsError StorageValue :=
  match valueFromString s e.type with
  | .error err => .error err
  | .ok v =>
    if v.typeOf ≠ e.type then .error (.typeMismatch e.type v.typeOf)
    else .ok (applyHook e v)

/-- The constructor argument of `StateComponent`: the literal `true`
(bind everything), an array of keys (always truthy in JS, even when empty),
or a falsy/omitted argument. -/
inductive ElementsArg where
  | allOf : ElementsArg
  | keyList (ks : List String) : ElementsArg
  | noArg : ElementsArg

/-- The observable outcome of a `StateComponent` construction: the frozen
`states` record, the channels a per-key listener was attached on (one entry
per `addListener` call, in registration order), and whether the aggregate
"change" listener was attached. -/
structure StateComponent where
  states : List (String × StateElement)
  perKeyListeners : List String
  changeListener : Bool

/-- Attach each key of an explicit list in order (`elements.forEach`),
propagating the `UnknownKey` throw of `State.attach`. -/
def attachAll (st : StateModel) : List String → List (String × StateElement) →
    Except JsError (List (String × StateElement))
  | [], acc => .ok acc
  | k :: ks, acc =>
    match stateAttach st k with
    | .error err => .error err
    | .ok el => attachAll st ks (mapSet acc k el)

/-- The `StateComponent` constructor.  `overridesHook` is the construction-time
own-property check for a subclass override of `$onStateChange`.  `true` binds
every element registered at construction time; a key array (truthy even when
empty) binds exactly the listed keys; a falsy argument binds nothing and,
only when the hook is overridden, attaches the aggregate "change" listener.
Per-key listeners are likewise attached only when the hook is overridden. -/
def componentNew (st : StateModel) (overridesHook : Bool) (arg : ElementsArg) :
    Except JsError StateComponent :=
  match arg with
  | .allOf =>
    .ok { states := st.elements,
          perKeyListeners := if overridesHook then st.elements.map Prod.fst else [],
          changeListener := false }
  | .keyList ks =>
    match attachAll st ks [] with
    | .error err => .error err
    | .ok sts =>
      .ok { states := sts,
            perKeyListeners := if overridesHook then ks else [],
            changeListener := false }
  | .noArg =>
    .ok { states := [], perKeyListeners := [], changeListener := overridesHook }

/-- The `$onStateChange` invocations a component's listeners produce for one
dispatched event: each per-key listener on the event's channel fires with the
captured key and the event's value detail; the aggregate listener fires on
the "change" channel with the detail's key/value pair.  (An aggregate-shaped
detail reaching a per-key listener, or vice versa, cannot arise for the
channels considered in the theorems below and is left out of the model.) -/
def eventCalls (c : StateComponent) (ev : Event) : List (String × StorageValue) :=
  (c.perKeyListeners.filter (fun k => k = ev.channel)).filterMap
      (fun k =>
        match ev.detail with
        | .plain v => some (k, v)
        | .change _ _ => Option.none) ++
    (if c.changeListener = true ∧ ev.channel = "change" then
      match ev.detail with
      | .change key v => [(key, v)]
      | .plain _ => []
    else [])

/-- All hook invocations a component receives from a list of dispatched
events, in delivery order. -/
def listenerCalls (c : StateComponent) : List Event → List (String × StorageValue)
  | [] => []
  | ev :: rest => eventCalls c ev ++ listenerCalls c rest

/-- `$resetAll`: reset every bound slot, in the record's key order, each
reset required to succeed. -/
def resetAll (w : World) : List (String × StateElement) → Except JsError World
  | [] => .ok w
  | (_, e) :: rest =>
    match elementReset w e with
    | .error err => .error err
    | .ok (w', _) => resetAll w' rest

/-- The in-memory value stored under `key` right after a successful `init`
(`Option.none` when `init` threw). -/
def initStored (w : World) (key : String) (opts : StateElementOptions) : Option StorageValue :=
  match stateInit w key opts with
  | .ok (w', _) => stateGet w'.state key
  | .error _ => Option.none

/-- The value `get()` returns after `init(key, opts)` followed immediately by
`reset()` on the returned element (`Option.none` when either call threw). -/
def initResetGet (w : World) (key : String) (opts : StateElementOptions) : Option StorageValue :=
  match stateInit w key opts with
  | .ok (w', e) =>
    match elementReset w' e with
    | .ok (w'', _) => elementGet w'' e
    | .error _ => Option.none
  | .error _ => Option.none

/-! Concrete fixtures used by the witnesses and counterexamples below. -/

/-- A plain number slot under key "n" (all config defaults). -/
def fixElem : StateElement :=
  { key := "n", defaultValue := .numberV (.int 0), config := {} }

/-- A registry holding `fixElem` at its default value. -/
def fixWorld : World :=
  { state := { storage := [("n", .numberV (.int 0))], elements := [("n", fixElem)] } }

/-- `fixWorld` after a successful `set` of 5 on the slot. -/
def fixWorld5 : World :=
  { state := { storage := [("n", .numberV (.int 5))], elements := [("n", fixElem)] } }

/-- Options whose `onBeforeSet` hook replaces every value with the number 1. -/
def hookOpts : StateElementOptions :=
  { defaultValue := .numberV (.int 0),
    config := { onBeforeSet := some (fun _ => .numberV (.int 1)) } }

/-- A slot config with events enabled. -/
def cfgEv : StateElementConfig := { useEvents := true }

/-- A slot config with persistence enabled. -/
def cfgLS : StateElementConfig := { useLocalStorage := true }

/-- A world whose state has the aggregate "change" event enabled. -/
def wEvOn : World := { state := { config := { useChangeEvent := true } } }

/-- A world whose state keeps the default config (no aggregate event). -/
def wEvOff : World := { state := {} }

/-- A world with the persistence prefix "app" configured. -/
def wPfx : World := { state := { config := { pfx := "app" } } }

/-- Options for a big-integer slot with persistence. -/
def bigOpts : StateElementOptions :=
  { defaultValue := .bigintV 0, config := { useLocalStorage := true } }

/-- A fresh world whose persisted store holds "5" under "kb". -/
def wBig : World := { state := {}, store := [("kb", "5")] }

/-- Options for a number slot with persistence. -/
def numOpts : StateElementOptions :=
  { defaultValue := .numberV (.int 0), config := { useLocalStorage := true } }

/-- A fresh world whose persisted store holds "7" under "n". -/
def wNum7 : World := { state := {}, store := [("n", "7")] }

/-- Options for an object slot with persistence. -/
def objOpts : StateElementOptions :=
  { defaultValue := .objectV (.obj []), config := { useLocalStorage := true } }

/-- A fresh world whose persisted store holds the malformed string "x"
under "o". -/
def wObjBad : World := { state := {}, store := [("o", "x")] }

/-- An events-enabled number slot under key "a". -/
def elemA : StateElement :=
  { key := "a", defaultValue := .numberV (.int 1), config := { useEvents := true } }

/-- A registry with `elemA` registered and the aggregate event enabled. -/
def stA : StateModel :=
  { storage := [("a", .numberV (.int 1))],
    elements := [("a", elemA)],
    config := { useChangeEvent := true } }

/-- `stA` as a world. -/
def wA : World := { state := stA }

/-- The component bound to the explicit list ["a"] over `stA` with an
overriding hook. -/
def cExpA : StateComponent :=
  { states := [("a", elemA)], perKeyListeners := ["a"], changeListener := false }

/-- The component bound to all slots of `stA` with an overriding hook. -/
def cAllA : StateComponent :=
  { states := stA.elements, perKeyListeners := ["a"], changeListener := false }

/-- The component bound to no slots over `stA` with an overriding hook. -/
def cNoneA : StateComponent :=
  { states := [], perKeyListeners := [], changeListener := true }

/-- A default-config (events disabled) number slot under key "b". -/
def elemB : StateElement :=
  { key := "b", defaultValue := .numberV (.int 1), config := {} }

/-- A registry with only `elemB` registered. -/
def stB : StateModel :=
  { storage := [("b", .numberV (.int 1))], elements := [("b", elemB)] }

/-- The component bound to ["b"] over `stB` with an overriding hook. -/
def cExpB : StateComponent :=
  { states := [("b", elemB)], perKeyListeners := ["b"], changeListener := false }

/-- A persisted bigint slot under "kb" (its refetch always fails the type
check, since bigint strings decode to numbers). -/
def focusElemBad : StateElement :=
  { key := "kb", defaultValue := .bigintV 0, config := { useLocalStorage := true } }

/-- A persisted number slot under "n". -/
def focusElemGood : StateElement :=
  { key := "n", defaultValue := .numberV (.int 0), config := { useLocalStorage := true } }

/-- A world with the bad slot registered before the good one and persisted
strings for both ("5" under "kb", "7" under "n"). -/
def wFocus : World :=
  { state := { storage := [("kb", .bigintV 0), ("n", .numberV (.int 0))],
               elements := [("kb", focusElemBad), ("n", focusElemGood)] },
    store := [("kb", "5"), ("n", "7")] }

/-! Helper lemmas about the map, filter and operation primitives. -/

theorem mapGet_mapSet_self {α : Type} (m : List (String × α)) (k : String) (v : α) :
    mapGet (mapSet m k v) k = some v := by
  induction m with
  | nil => simp [mapSet, mapGet]
  | cons p rest ih =>
    by_cases h : p.1 = k
    · simp [mapSet, mapGet, h]
    · simp [mapSet, mapGet, h, ih]

theorem mapGet_mapSet_ne {α : Type} (m : List (String × α)) (k k' : String) (v : α)
    (h : k' ≠ k) : mapGet (mapSet m k v) k' = mapGet m k' :=
  by
  induction m with
  | nil =>
    simp only [mapSet, mapGet]
    rw [if_neg (fun hh => h hh.symm)]
  | cons p rest ih =>
    by_cases hp : p.1 = k
    · simp only [mapSet, mapGet, hp, if_pos rfl]
      rw [if_neg (fun hh => h hh.symm), if_neg (fun hh => h hh.symm)]
    · simp only [mapSet, mapGet, if_neg hp]
      by_cases hp' : p.1 = k'
      · rw [if_pos hp', if_pos hp']
      · rw [if_neg hp', if_neg hp', ih]

theorem filter_eq_of_nodup (ks : List String) (h : ks.Nodup) (a : String) :
    ks.filter (fun k => k = a) = if a ∈ ks then [a] else [] := by
  induction ks with
  | nil => simp
  | cons x xs ih =>
    rcases List.nodup_cons.mp h with ⟨hx, hxs⟩
    by_cases hxa : x = a
    · subst hxa
      have : x ∉ xs := hx
      simp [List.filter_cons, ih hxs, this]
    · simp [List.filter_cons, hxa, ih hxs, Ne.symm hxa]

theorem filter_eq_of_not_mem (ks : List String) (a : String) (h : a ∉ ks) :
    ks.filter (fun k => k = a) = [] := by
  refine List.filter_eq_nil_iff.mpr ?_
  intro b hb
  simp only [decide_eq_true_eq]
  intro hba
  exact h (hba ▸ hb)

theorem prefixKey_inj (c : StateConfig) (k k' : String) (h : prefixKey c k = prefixKey c k') :
    k = k' := by
  unfold prefixKey at h
  by_cases hp : c.pfx = ""
  · simpa [hp] using h
  · simp only [hp, if_neg, ite_false] at h
    have hd : (c.pfx ++ "-" ++ k).data = (c.pfx ++ "-" ++ k').data := by rw [h]
    simp only [String.data_append] at hd
    have := List.append_cancel_left hd
    exact String.ext this

theorem stateSet_storage (w : World) (k : String) (v : StorageValue) (c : StateElementConfig) :
    (stateSet w k v c).1.state.storage = mapSet w.state.storage k v := rfl

theorem stateSet_elements (w : World) (k : String) (v : StorageValue) (c : StateElementConfig) :
    (stateSet w k v c).1.state.elements = w.state.elements := rfl

theorem stateSet_stateConfig (w : World) (k : String) (v : StorageValue) (c : StateElementConfig) :
    (stateSet w k v c).1.state.config = w.state.config := rfl

theorem stateSet_store_ne (w : World) (k : String) (v : StorageValue) (c : StateElementConfig)
    (y : String) (hy : y ≠ prefixKey w.state.config k) :
    mapGet (stateSet w k v c).1.store y = mapGet w.store y := by
  by_cases hls : c.useLocalStorage
  · show mapGet (if c.useLocalStorage then _ else _) y = _
    rw [if_pos hls]
    exact mapGet_mapSet_ne _ _ _ _ hy
  · show mapGet (if c.useLocalStorage then _ else _) y = _
    rw [if_neg hls]

theorem elementSet_ok (w : World) (e : StateElement) (v : StorageValue)
    (hty : v.typeOf = e.type) :
    elementSet w e v = .ok (stateSet w e.key (applyHook e v) e.config) := by
  unfold elementSet
  rw [if_neg (by simp [hty])]

theorem elementSet_ok_inv {w : World} {e : StateElement} {v : StorageValue}
    {w' : World} {evs : List Event}
    (h : elementSet w e v = .ok (w', evs)) :
    v.typeOf = e.type ∧ w' = (stateSet w e.key (applyHook e v) e.config).1 ∧
      evs = (stateSet w e.key (applyHook e v) e.config).2 := by
  unfold elementSet at h
  by_cases hty : v.typeOf = e.type
  · rw [if_neg (by simp [hty])] at h
    injection h with h'
    exact ⟨hty, by rw [h'], by rw [h']⟩
  · rw [if_pos (by simp [hty])] at h
    cases h

theorem elementSet_err {w : World} {e : StateElement} {v : StorageValue}
    (hty : v.typeOf ≠ e.type) :
    elementSet w e v = .error (.typeMismatch e.type v.typeOf) := by
  unfold elementSet
  rw [if_pos (by simp [hty])]

theorem componentNew_keyList_ok {st : StateModel} {ks : List String} {o : Bool}
    {c : StateComponent} (h : componentNew st o (.keyList ks) = .ok c) :
    c.perKeyListeners = (if o then ks else []) ∧ c.changeListener = false := by
  simp only [componentNew] at h
  cases hA : attachAll st ks [] with
  | error err =>
    rw [hA] at h
    simp at h
  | ok sts =>
    rw [hA] at h
    injection h with h'
    exact ⟨by rw [← h'], by rw [← h']⟩

theorem componentNew_allOf_ok {st : StateModel} {o : Bool} {c : StateComponent}
    (h : componentNew st o .allOf = .ok c) :
    c.perKeyListeners = (if o then st.elements.map Prod.fst else []) ∧
      c.changeListener = false := by
  simp only [componentNew] at h
  injection h with h'
  exact ⟨by rw [← h'], by rw [← h']⟩

theorem componentNew_noArg_ok {st : StateModel} {o : Bool} {c : StateComponent}
    (h : componentNew st o .noArg = .ok c) :
    c.perKeyListeners = [] ∧ c.changeListener = o := by
  simp only [componentNew] at h
  injection h with h'
  exact ⟨by rw [← h'], by rw [← h']⟩

theorem focusStep_frame (w : World) (k : String) (e : StateElement) :
    (focusStep w k e).1.state.config = w.state.config ∧
    (focusStep w k e).1.state.elements = w.state.elements ∧
    (∀ x, x ≠ e.key → stateGet (focusStep w k e).1.state x = stateGet w.state x) ∧
    (∀ y, y ≠ prefixKey w.state.config e.key →
      mapGet (focusStep w k e).1.store y = mapGet w.store y) := by
  by_cases hcond : (e.config.useLocalStorage && e.config.useRefetchOnFocus) = true
  · cases hg : mapGet w.store (prefixKey w.state.config k) with
    | none =>
      refine ⟨?_, ?_, fun x hx => ?_, fun y hy => ?_⟩ <;> simp [focusStep, hcond, hg]
    | some s =>
      cases hvf : valueFromString s e.type with
      | error err =>
        refine ⟨?_, ?_, fun x hx => ?_, fun y hy => ?_⟩ <;>
          simp [focusStep, hcond, hg, hvf]
      | ok v =>
        cases hes : elementSet w e v with
        | error err =>
          refine ⟨?_, ?_, fun x hx => ?_, fun y hy => ?_⟩ <;>
            simp [focusStep, hcond, hg, hvf, hes]
        | ok p =>
          obtain ⟨w', evs⟩ := p
          obtain ⟨-, hw', -⟩ := elementSet_ok_inv hes
          subst hw'
          refine ⟨?_, ?_, fun x hx => ?_, fun y hy => ?_⟩
          · simp [focusStep, hcond, hg, hvf, hes, stateSet_stateConfig]
          · simp [focusStep, hcond, hg, hvf, hes, stateSet_elements]
          · simp only [focusStep, hcond, hg, hvf, hes]
            simp [stateGet, stateSet_storage, mapGet_mapSet_ne _ _ _ _ hx]
          · simp only [focusStep, hcond, hg, hvf, hes]
            exact stateSet_store_ne w e.key (applyHook e v) e.config y hy
  · refine ⟨?_, ?_, fun x hx => ?_, fun y hy => ?_⟩ <;> simp [focusStep, hcond]

theorem focusStep_qualifying (w : World) (k : String) (e : StateElement)
    (hf₁ : e.config.useLocalStorage = true) (hf₂ : e.config.useRefetchOnFocus = true)
    (s : String) (hs : mapGet w.store (prefixKey w.state.config k) = some s) :
    (∀ v, refetchResult e s = .ok v →
      stateGet (focusStep w k e).1.state e.key = some v ∧ (focusStep w k e).2.2 = []) ∧
    (∀ err, refetchResult e s = .error err → focusStep w k e = (w, [], [err])) := by
  have hcond : (e.config.useLocalStorage && e.config.useRefetchOnFocus) = true := by
    simp [hf₁, hf₂]
  constructor
  · intro v hv
    unfold refetchResult at hv
    cases hvf : valueFromString s e.type with
    | error err =>
      rw [hvf] at hv
      simp at hv
    | ok v₀ =>
      rw [hvf] at hv
      simp only [] at hv
      by_cases hty : v₀.typeOf = e.type
      · rw [if_neg (by simp [hty])] at hv
        injection hv with hv'
        have hes : elementSet w e v₀ = .ok (stateSet w e.key (applyHook e v₀) e.config) :=
          elementSet_ok w e v₀ hty
        constructor
        · simp only [focusStep, hcond, hs, hvf, hes]
          simp [stateGet, stateSet_storage, mapGet_mapSet_self, hv']
        · simp [focusStep, hcond, hs, hvf, hes]
      · rw [if_pos (by simp [hty])] at hv
        simp at hv
  · intro err herr
    unfold refetchResult at herr
    cases hvf : valueFromString s e.type with
    | error err₀ =>
      rw [hvf] at herr
      simp only [] at herr
      injection herr with herr'
      subst herr'
      simp [focusStep, hcond, hs, hvf]
    | ok v₀ =>
      rw [hvf] at herr
      simp only [] at herr
      by_cases hty : v₀.typeOf = e.type
      · rw [if_neg (by simp [hty])] at herr
        simp at herr
      · rw [if_pos (by simp [hty])] at herr
        injection herr with herr'
        subst herr'
        have hes : elementSet w e v₀ = .error (.typeMismatch e.type v₀.typeOf) :=
          elementSet_err hty
        simp [focusStep, hcond, hs, hvf, hes]

theorem runFocus_keepConfig (l : List (String × StateElement)) :
    ∀ w : World, (runFocus l w).1.state.config = w.state.config := by
  induction l with
  | nil => intro w; rfl
  | cons p rest ih =>
    intro w
    obtain ⟨k₀, e₀⟩ := p
    show (runFocus rest (focusStep w k₀ e₀).1).1.state.config = w.state.config
    rw [ih (focusStep w k₀ e₀).1, (focusStep_frame w k₀ e₀).1]

theorem runFocus_frame (l : List (String × StateElement)) :
    ∀ (w : World) (k : String), (∀ p ∈ l, (p.2 : StateElement).key ≠ k) →
      stateGet (runFocus l w).1.state k = stateGet w.state k := by
  induction l with
  | nil => intro w k _; rfl
  | cons p rest ih =>
    intro w k hk
    obtain ⟨k₀, e₀⟩ := p
    show stateGet (runFocus rest (focusStep w k₀ e₀).1).1.state k = stateGet w.state k
    rw [ih (focusStep w k₀ e₀).1 k (fun q hq => hk q (List.mem_cons_of_mem _ hq))]
    exact (focusStep_frame w k₀ e₀).2.2.1 k
      (fun hx => hk (k₀, e₀) (List.mem_cons_self _ _) hx.symm)

theorem runFocus_spec (l : List (String × StateElement)) :
    ∀ (w : World), (l.map Prod.fst).Nodup →
      (∀ p ∈ l, (p.2 : StateElement).key = p.1) →
      ∀ (k : String) (e : StateElement), (k, e) ∈ l →
        e.config.useLocalStorage = true → e.config.useRefetchOnFocus = true →
        ∀ s : String, mapGet w.store (prefixKey w.state.config k) = some s →
          (∀ v, refetchResult e s = .ok v →
            stateGet (runFocus l w).1.state k = some v) ∧
          (∀ err, refetchResult e s = .error err →
            err ∈ (runFocus l w).2.2 ∧
              stateGet (runFocus l w).1.state k = stateGet w.state k) := by
  induction l with
  | nil =>
    intro w _ _ k e hmem
    cases hmem
  | cons p rest ih =>
    intro w hnd hkeys k e hmem hf₁ hf₂ s hs
    obtain ⟨k₀, e₀⟩ := p
    have hkey₀ : e₀.key = k₀ := hkeys (k₀, e₀) (List.mem_cons_self _ _)
    have hnotin : k₀ ∉ rest.map Prod.fst := (List.nodup_cons.mp hnd).1
    rcases List.mem_cons.mp hmem with heq | hmem'
    · injection heq with hk₀ he₀
      subst hk₀
      subst he₀
      have hknotin : ∀ q ∈ rest, (q.2 : StateElement).key ≠ k := by
        intro q hq hqk
        have hq1 := hkeys q (List.mem_cons_of_mem _ hq)
        rw [hq1] at hqk
        exact hnotin (hqk ▸ List.mem_map_of_mem Prod.fst hq)
      constructor
      · intro v hv
        have hstep := ((focusStep_qualifying w k e hf₁ hf₂ s hs).1 v hv).1
        rw [hkey₀] at hstep
        show stateGet (runFocus rest (focusStep w k e).1).1.state k = some v
        rw [runFocus_frame rest (focusStep w k e).1 k hknotin]
        exact hstep
      · intro err herr
        have hstep := (focusStep_qualifying w k e hf₁ hf₂ s hs).2 err herr
        constructor
        · show err ∈ (focusStep w k e).2.2 ++ (runFocus rest (focusStep w k e).1).2.2
          rw [hstep]
          exact List.mem_append_left _ (List.mem_cons_self _ _)
        · show stateGet (runFocus rest (focusStep w k e).1).1.state k = stateGet w.state k
          rw [hstep]
          exact runFocus_frame rest w k hknotin
    · have hkmem : k ∈ rest.map Prod.fst := List.mem_map_of_mem Prod.fst hmem'
      have hk₀k : k₀ ≠ k := fun hEq => hnotin (hEq ▸ hkmem)
      have hpkne : prefixKey w.state.config k ≠ prefixKey w.state.config e₀.key := by
        rw [hkey₀]
        intro hEq
        exact hk₀k (prefixKey_inj _ _ _ hEq).symm
      have hs' : mapGet (focusStep w k₀ e₀).1.store
          (prefixKey (focusStep w k₀ e₀).1.state.config k) = some s := by
        rw [(focusStep_frame w k₀ e₀).1,
          (focusStep_frame w k₀ e₀).2.2.2 (prefixKey w.state.config k) hpkne]
        exact hs
      have ihr := ih (focusStep w k₀ e₀).1 (List.nodup_cons.mp hnd).2
        (fun q hq => hkeys q (List.mem_cons_of_mem _ hq)) k e hmem' hf₁ hf₂ s hs'
      constructor
      · intro v hv
        show stateGet (runFocus rest (focusStep w k₀ e₀).1).1.state k = some v
        exact ihr.1 v hv
      · intro err herr
        obtain ⟨hmem₂, hunch⟩ := ihr.2 err herr
        constructor
        · show err ∈ (focusStep w k₀ e₀).2.2 ++ (runFocus rest (focusStep w k₀ e₀).1).2.2
          exact List.mem_append_right _ hmem₂
        · show stateGet (runFocus rest (focusStep w k₀ e₀).1).1.state k = stateGet w.state k
          rw [hunch]
          exact (focusStep_frame w k₀ e₀).2.2.1 k
            (fun hx => hk₀k (hkey₀ ▸ hx.symm ▸ rfl))

/-! The claim theorems. -/

/-- C1 (code bug): the string/number/object round-trip claim is broken for
the boolean kind: `valueToString` renders `false` as "false", but
`valueFromString` under the boolean kind is the JS `Boolean(string)`
truthiness coercion, which maps every nonempty string — "false" included —
to `true`.  A persisted boolean `false` therefore reloads as `true`. -/
theorem boolean_roundtrip_bug :
    valueToString (.boolV false) = "false" ∧
    valueFromString "false" .boolean = .ok (.boolV true) :=
  ⟨rfl, rfl⟩

/-- C2: for a slot with no `onBeforeSet` hook, `StateElement.set` succeeds
and stores the value exactly when its `typeof` equals the slot's recorded
kind, and throws `TypeMismatch` (mutating nothing — the error is raised
before any state is touched) when it differs. -/
theorem elementSet_typecheck (w : World) (e : StateElement) (v : StorageValue)
    (hhook : e.config.onBeforeSet = Option.none) :
    (v.typeOf = e.type →
      ∃ w' evs, elementSet w e v = .ok (w', evs) ∧ elementGet w' e = some v) ∧
    (v.typeOf ≠ e.type →
      elementSet w e v = .error (.typeMismatch e.type v.typeOf)) := by
  constructor
  · intro hty
    have happ : applyHook e v = v := by simp [applyHook, hhook]
    refine ⟨(stateSet w e.key v e.config).1, (stateSet w e.key v e.config).2, ?_, ?_⟩
    · have h := elementSet_ok w e v hty
      rw [happ] at h
      exact h
    · simp [elementGet, stateGet, stateSet_storage, mapGet_mapSet_self]
  · exact fun hty => elementSet_err hty

/-- Witness for C2 at a concrete number slot: setting 5 succeeds and stores
it; setting the string "x" fails with the `TypeMismatch` of number/string. -/
theorem elementSet_typecheck_witness :
    (∃ w' evs, elementSet fixWorld fixElem (.numberV (.int 5)) = .ok (w', evs) ∧
      elementGet w' fixElem = some (.numberV (.int 5))) ∧
    elementSet fixWorld fixElem (.stringV "x") =
      .error (.typeMismatch .number .string) :=
  ⟨(elementSet_typecheck fixWorld fixElem (.numberV (.int 5)) rfl).1 rfl,
   (elementSet_typecheck fixWorld fixElem (.stringV "x") rfl).2 (by decide)⟩

/-- C3 counterexample: a slot whose `onBeforeSet` hook rewrites every value
to 1 is initialized with default 0; `reset()` right after `init` makes
`get()` return 1, not the supplied default — because `reset` is
`set(defaultValue)` and the transform hook applies to it too. -/
theorem reset_hook_cex :
    initResetGet wEvOff "k" hookOpts = some (.numberV (.int 1)) ∧
    hookOpts.defaultValue = .numberV (.int 0) ∧
    (StorageValue.numberV (.int 1)) ≠ (StorageValue.numberV (.int 0)) := by
  refine ⟨rfl, rfl, ?_⟩
  simp

/-- C3 (amended): for a slot with no `onBeforeSet` hook, after any finite
sequence of successful `set` calls, `reset()` succeeds and makes `get()`
return exactly the `defaultValue` supplied at init. -/
theorem reset_restores_default (w : World) (e : StateElement) (vs : List StorageValue)
    (w₁ : World)
    (hhook : e.config.onBeforeSet = Option.none)
    (_hseq : setMany w e vs = .ok w₁) :
    ∃ w₂ evs, elementReset w₁ e = .ok (w₂, evs) ∧
      elementGet w₂ e = some e.defaultValue := by
  have happ : applyHook e e.defaultValue = e.defaultValue := by simp [applyHook, hhook]
  refine ⟨(stateSet w₁ e.key e.defaultValue e.config).1,
          (stateSet w₁ e.key e.defaultValue e.config).2, ?_, ?_⟩
  · have h := elementSet_ok w₁ e e.defaultValue rfl
    rw [happ] at h
    exact h
  · simp [elementGet, stateGet, stateSet_storage, mapGet_mapSet_self]

/-- Witness for C3 (amended): the number slot is set to 5 and then reset;
`get()` returns the default 0. -/
theorem reset_restores_default_witness :
    ∃ w₂ evs, elementReset fixWorld5 fixElem = .ok (w₂, evs) ∧
      elementGet w₂ fixElem = some fixElem.defaultValue :=
  reset_restores_default fixWorld fixElem [.numberV (.int 5)] fixWorld5 rfl rfl

/-- C4 counterexample: a component bound to the explicit list ["b"] with an
overriding hook receives zero hook calls for a `set` on the bound key "b"
when that slot's config leaves `useEvents` at its default `false` — not
exactly one call as claimed. -/
theorem component_reaction_cex :
    componentNew stB true (.keyList ["b"]) = .ok cExpB ∧
    listenerCalls cExpB (stateSet { state := stB } "b" (.numberV (.int 2)) elemB.config).2 = [] ∧
    ([] : List (String × StorageValue)) ≠ [("b", StorageValue.numberV (.int 2))] := by
  refine ⟨rfl, rfl, by simp⟩

/-- C4 (amended): for sets that dispatch events (slot config `useEvents`),
with distinct bound keys none named "change": a component constructed with an
explicit key list receives exactly one `$onStateChange` call per set on each
bound key (and none for unbound keys), with arguments matching the set; one
constructed with the all-slots sentinel receives the same for every slot
registered at its construction; one constructed with no binding, in a State
with the aggregate event enabled, receives one call for every set. -/
theorem component_reaction_calls
    (st : StateModel) (ks : List String) (cExp cAll cNone : StateComponent)
    (w : World) (key : String) (v : StorageValue) (cfg : StateElementConfig)
    (hevents : cfg.useEvents = true)
    (hexp : componentNew st true (.keyList ks) = .ok cExp)
    (hall : componentNew st true .allOf = .ok cAll)
    (hnone : componentNew st true .noArg = .ok cNone)
    (hnd : ks.Nodup) (hnc : "change" ∉ ks)
    (hndAll : (st.elements.map Prod.fst).Nodup)
    (hncAll : "change" ∉ st.elements.map Prod.fst)
    (hkey : key ≠ "change") :
    (listenerCalls cExp (stateSet w key v cfg).2 =
      if key ∈ ks then [(key, v)] else []) ∧
    (listenerCalls cAll (stateSet w key v cfg).2 =
      if key ∈ st.elements.map Prod.fst then [(key, v)] else []) ∧
    (w.state.config.useChangeEvent = true →
      listenerCalls cNone (stateSet w key v cfg).2 = [(key, v)]) := by
  obtain ⟨hexpL, hexpC⟩ := componentNew_keyList_ok hexp
  obtain ⟨hallL, hallC⟩ := componentNew_allOf_ok hall
  obtain ⟨hnoneL, hnoneC⟩ := componentNew_noArg_ok hnone
  rw [if_pos rfl] at hexpL hallL
  have hcallsExp : ∀ l : List String, l.Nodup → "change" ∉ l →
      ∀ c : StateComponent, c.perKeyListeners = l → c.changeListener = false →
      listenerCalls c (stateSet w key v cfg).2 = if key ∈ l then [(key, v)] else [] := by
    intro l hlnd hlnc c hcl hcc
    cases hChg : w.state.config.useChangeEvent with
    | true =>
      have hevs : (stateSet w key v cfg).2 =
          [{ channel := key, detail := .plain v },
           { channel := "change", detail := .change key v }] := by
        simp [stateSet, hevents, hChg]
      rw [hevs]
      simp only [listenerCalls, eventCalls, hcl, hcc]
      rw [filter_eq_of_nodup l hlnd key, filter_eq_of_not_mem l "change" hlnc]
      by_cases hk : key ∈ l
      · simp [hk]
      · simp [hk]
    | false =>
      have hevs : (stateSet w key v cfg).2 = [{ channel := key, detail := .plain v }] := by
        simp [stateSet, hevents, hChg]
      rw [hevs]
      simp only [listenerCalls, eventCalls, hcl, hcc]
      rw [filter_eq_of_nodup l hlnd key]
      by_cases hk : key ∈ l
      · simp [hk]
      · simp [hk]
  refine ⟨hcallsExp ks hnd hnc cExp hexpL hexpC,
          hcallsExp (st.elements.map Prod.fst) hndAll hncAll cAll hallL hallC, ?_⟩
  intro hChg
  have hevs : (stateSet w key v cfg).2 =
      [{ channel := key, detail := .plain v },
       { channel := "change", detail := .change key v }] := by
    simp [stateSet, hevents, hChg]
  rw [hevs]
  simp [listenerCalls, eventCalls, hnoneL, hnoneC, hkey]

/-- Witness for C4 on a one-slot registry (slot "a", events enabled,
aggregate event on): a set of 2 on "a" yields exactly the call ("a", 2) for
the explicit-list component, the all-slots component, and the unbound
(aggregate) component. -/
theorem component_reaction_calls_witness :
    listenerCalls cExpA (stateSet wA "a" (.numberV (.int 2)) cfgEv).2 =
      [("a", StorageValue.numberV (.int 2))] ∧
    listenerCalls cAllA (stateSet wA "a" (.numberV (.int 2)) cfgEv).2 =
      [("a", StorageValue.numberV (.int 2))] ∧
    listenerCalls cNoneA (stateSet wA "a" (.numberV (.int 2)) cfgEv).2 =
      [("a", StorageValue.numberV (.int 2))] := by
  have h := component_reaction_calls stA ["a"] cExpA cAllA cNoneA wA "a"
    (.numberV (.int 2)) cfgEv rfl rfl rfl rfl (by decide) (by decide) (by decide)
    (by decide) (by decide)
  exact ⟨h.1, h.2.1, h.2.2 rfl⟩

/-- C5: `State.set` with events enabled dispatches the per-key event first
and then, exactly when the State-level `useChangeEvent` flag is set, the
aggregate "change" event; with events disabled it dispatches nothing. -/
theorem set_event_order (w : World) (key : String) (v : StorageValue)
    (cfg : StateElementConfig) :
    (cfg.useEvents = true → w.state.config.useChangeEvent = true →
      (stateSet w key v cfg).2 =
        [{ channel := key, detail := .plain v },
         { channel := "change", detail := .change key v }]) ∧
    (cfg.useEvents = true → w.state.config.useChangeEvent = false →
      (stateSet w key v cfg).2 = [{ channel := key, detail := .plain v }]) ∧
    (cfg.useEvents = false → (stateSet w key v cfg).2 = []) :=
  ⟨fun h₁ h₂ => by simp [stateSet, h₁, h₂],
   fun h₁ h₂ => by simp [stateSet, h₁, h₂],
   fun h₁ => by simp [stateSet, h₁]⟩

/-- Witness for C5 on concrete sets: with the aggregate flag on, per-key then
aggregate; with it off, per-key only; with slot events off, nothing. -/
theorem set_event_order_witness :
    (stateSet wEvOn "a" (.numberV (.int 2)) cfgEv).2 =
      [{ channel := "a", detail := .plain (.numberV (.int 2)) },
       { channel := "change", detail := .change "a" (.numberV (.int 2)) }] ∧
    (stateSet wEvOff "a" (.numberV (.int 2)) cfgEv).2 =
      [{ channel := "a", detail := .plain (.numberV (.int 2)) }] ∧
    (stateSet wEvOn "a" (.numberV (.int 2)) ({} : StateElementConfig)).2 = [] :=
  ⟨(set_event_order wEvOn "a" (.numberV (.int 2)) cfgEv).1 rfl rfl,
   (set_event_order wEvOff "a" (.numberV (.int 2)) cfgEv).2.1 rfl rfl,
   (set_event_order wEvOn "a" (.numberV (.int 2)) {}).2.2 rfl⟩

/-- C6 counterexample: a big-integer slot (default `0n`) with persistence
finds the string "5"; `init` stores the decoded value, but that value is a
number (`Number("5")`), not a value of the slot's recorded bigint kind. -/
theorem init_bigint_kind_cex :
    initStored wBig "kb" bigOpts = some (.numberV (.int 5)) ∧
    StorageValue.typeOf (.numberV (.int 5)) ≠ StorageValue.typeOf bigOpts.defaultValue := by
  exact ⟨rfl, by decide⟩

/-- C6 (amended): when the slot's config requests persistence and a persisted
string exists under the prefixed key, `init` decodes it under the slot's
recorded kind and stores the decoded value as the initial value, overriding
the supplied default (the decoded value's own kind can differ from the
recorded kind, as for bigint slots); a decode failure propagates uncaught,
as the same error `init` throws. -/
theorem init_persisted_load (w : World) (key : String) (opts : StateElementOptions)
    (s : String)
    (hfresh : (mapGet w.state.elements key).isSome = false)
    (hls : opts.config.useLocalStorage = true)
    (hs : mapGet w.store (prefixKey w.state.config key) = some s) :
    (∀ v, valueFromString s opts.defaultValue.typeOf = .ok v →
      initStored w key opts = some v) ∧
    (∀ err, valueFromString s opts.defaultValue.typeOf = .error err →
      stateInit w key opts = .error err) := by
  constructor
  · intro v hv
    simp [initStored, stateInit, hfresh, hls, hs, hv, stateGet, stateSet,
      mapGet_mapSet_self]
  · intro err herr
    simp [stateInit, hfresh, hls, hs, herr]

/-- Witness for C6: a number slot with persisted "7" initializes to 7
(overriding the default 0); an object slot with the malformed persisted
string "x" makes `init` throw the JSON parse error. -/
theorem init_persisted_load_witness :
    initStored wNum7 "n" numOpts = some (.numberV (.int 7)) ∧
    stateInit wObjBad "o" objOpts = .error (.jsonError "unexpected end of JSON input") :=
  ⟨(init_persisted_load wNum7 "n" numOpts "7" rfl rfl rfl).1 (.numberV (.int 7)) rfl,
   (init_persisted_load wObjBad "o" objOpts "x" rfl rfl rfl).2
     (.jsonError "unexpected end of JSON input") rfl⟩

/-- C8: `init` on an already registered key throws `DuplicateKey` and
`attach` on a never-registered key throws `UnknownKey`; both throw before
touching anything, so the element map is unchanged (an error result carries
no mutated state in this embedding). -/
theorem init_attach_errors (w : World) (key : String) (opts : StateElementOptions)
    (st : StateModel) (k₂ : String) :
    ((mapGet w.state.elements key).isSome = true →
      stateInit w key opts = .error .duplicateKey) ∧
    (mapGet st.elements k₂ = Option.none →
      stateAttach st k₂ = .error .unknownKey) := by
  constructor
  · intro h
    simp [stateInit, h]
  · intro h
    simp [stateAttach, h]

/-- Witness for C8: re-initializing the registered key "n" fails with
`DuplicateKey`; attaching "z" on an empty registry fails with `UnknownKey`. -/
theorem init_attach_errors_witness :
    stateInit fixWorld "n" numOpts = .error .duplicateKey ∧
    stateAttach ({} : StateModel) "z" = .error .unknownKey :=
  ⟨(init_attach_errors fixWorld "n" numOpts {} "z").1 rfl,
   (init_attach_errors fixWorld "n" numOpts {} "z").2 rfl⟩

/-- C9 counterexample: with the prefix "app", a persisted set for key "k"
lands under "app-k" (prefix, hyphen, key), and nothing is stored under the
plain concatenation "appk". -/
theorem storageKey_concat_cex :
    mapGet (stateSet wPfx "k" (.stringV "v") cfgLS).1.store "app-k" = some "v" ∧
    mapGet (stateSet wPfx "k" (.stringV "v") cfgLS).1.store "appk" = Option.none :=
  ⟨rfl, rfl⟩

/-- C9 (amended): persisted values are stored to and loaded from local
storage under `prefixKey`: the slot key itself when the prefix is empty
(the default), and prefix ++ "-" ++ key otherwise; a persisting `set`
writes the encoded value there, and `init` with persistence consults
exactly that location (when it holds nothing, the default is used). -/
theorem storageKey_shape (c : StateConfig) (w : World) (key : String) (v : StorageValue)
    (cfg : StateElementConfig) (opts : StateElementOptions)
    (hls : cfg.useLocalStorage = true) :
    (c.pfx = "" → prefixKey c key = key) ∧
    (c.pfx ≠ "" → prefixKey c key = c.pfx ++ "-" ++ key) ∧
    mapGet (stateSet w key v cfg).1.store (prefixKey w.state.config key) =
      some (valueToString v) ∧
    ((mapGet w.state.elements key).isSome = false → opts.config.useLocalStorage = true →
      mapGet w.store (prefixKey w.state.config key) = Option.none →
      initStored w key opts = some opts.defaultValue) := by
  refine ⟨fun h => by simp [prefixKey, h], fun h => by simp [prefixKey, h], ?_, ?_⟩
  · simp [stateSet, hls, mapGet_mapSet_self]
  · intro h₁ h₂ h₃
    simp [initStored, stateInit, h₁, h₂, h₃, stateGet, stateSet, mapGet_mapSet_self]

/-- Witness for C9: the empty-prefix key is the slot key, the "app" prefix
yields "app-k", a persisting set stores the encoding there, and on a fresh
store `init` keeps the default. -/
theorem storageKey_shape_witness :
    prefixKey ({} : StateConfig) "k" = "k" ∧
    prefixKey wPfx.state.config "k" = "app" ++ "-" ++ "k" ∧
    mapGet (stateSet wPfx "k" (.stringV "v") cfgLS).1.store
      (prefixKey wPfx.state.config "k") = some (valueToString (.stringV "v")) ∧
    initStored wEvOff "k" numOpts = some numOpts.defaultValue :=
  ⟨(storageKey_shape {} wPfx "k" (.stringV "v") cfgLS numOpts rfl).1 rfl,
   (storageKey_shape wPfx.state.config wPfx "k" (.stringV "v") cfgLS numOpts rfl).2.1
     (by decide),
   (storageKey_shape wPfx.state.config wPfx "k" (.stringV "v") cfgLS numOpts rfl).2.2.1,
   (storageKey_shape {} wEvOff "k" (.stringV "v") cfgLS numOpts rfl).2.2.2 rfl rfl rfl⟩

/-- C7: the focus-resync pass applies, for every registered slot with both
persistence and focus-refetch enabled and a persisted string present, the
decoded value through the slot's normal `set` path; an error while decoding
or applying one slot's value is caught (it appears in the handler's error
log and the pass returns normally, by construction of `focusStep`) and the
pass continues with the remaining slots — that slot's in-memory value stays
unchanged while every other qualifying slot is still updated. -/
theorem focus_resync_safe (w : World)
    (hnd : (w.state.elements.map Prod.fst).Nodup)
    (hkeys : ∀ p ∈ w.state.elements, (p.2 : StateElement).key = p.1)
    (k : String) (e : StateElement) (hmem : (k, e) ∈ w.state.elements)
    (hf₁ : e.config.useLocalStorage = true) (hf₂ : e.config.useRefetchOnFocus = true)
    (s : String) (hs : mapGet w.store (prefixKey w.state.config k) = some s) :
    (∀ v, refetchResult e s = .ok v →
      stateGet (onFocus w).1.state k = some v) ∧
    (∀ err, refetchResult e s = .error err →
      err ∈ (onFocus w).2.2 ∧
        stateGet (onFocus w).1.state k = stateGet w.state k) :=
  runFocus_spec w.state.elements w hnd hkeys k e hmem hf₁ hf₂ s hs

/-- Witness for C7 on a two-slot registry where the first slot's refetch
fails (a bigint slot decodes to a number, so its `set` throws TypeMismatch)
and the second succeeds: the pass logs the first error, leaves "kb"
unchanged, and still updates "n" to the persisted 7. -/
theorem focus_resync_safe_witness :
    (JsError.typeMismatch .bigint .number ∈ (onFocus wFocus).2.2 ∧
      stateGet (onFocus wFocus).1.state "kb" = stateGet wFocus.state "kb") ∧
    stateGet (onFocus wFocus).1.state "n" = some (.numberV (.int 7)) := by
  have hkeys : ∀ p ∈ wFocus.state.elements, (p.2 : StateElement).key = p.1 := by
    intro p hp
    simp [wFocus] at hp
    rcases hp with rfl | rfl
    · rfl
    · rfl
  have hbad := (focus_resync_safe wFocus (by decide) hkeys "kb" focusElemBad
    (by simp [wFocus]) rfl rfl "5" rfl).2 (.typeMismatch .bigint .number) rfl
  have hgood := (focus_resync_safe wFocus (by decide) hkeys "n" focusElemGood
    (by simp [wFocus]) rfl rfl "7" rfl).1 (.numberV (.int 7)) rfl
  exact ⟨hbad, hgood⟩

/-- C10: a `StateComponent` constructed with the empty key array takes the
explicit-list branch (an array is truthy in JS): it binds no slots and
attaches no listener of any kind, for any value of the override check, so it
never receives a hook call — unlike a falsy argument, which (with an
overriding subclass) attaches the aggregate listener. -/
theorem empty_keylist_binding (st : StateModel) (overridesHook : Bool) (evs : List Event) :
    componentNew st overridesHook (.keyList []) =
      .ok { states := [], perKeyListeners := [], changeListener := false } ∧
    listenerCalls { states := [], perKeyListeners := [], changeListener := false } evs = [] ∧
    componentNew st true .noArg =
      .ok { states := [], perKeyListeners := [], changeListener := true } := by
  refine ⟨?_, ?_, rfl⟩
  · cases overridesHook <;> rfl
  · induction evs with
    | nil => rfl
    | cons ev rest ih => simp [listenerCalls, eventCalls, ih]

end Statefulia
